import Mathlib

/-
Verification of the `bqb` SQL statement-assembly library: the placeholder
expansion engine (`Valf`, `makePart`, `convertArg`, `checkParamCounts`), the
token-scanning replacer (`scanReplace`, `replaceWithScans`) and the dialect
renderer (`dialectReplace`, `paramToRaw`).

Modelling conventions:
- Go strings are modelled as `List Char` (the markers and sentinels involved
  are ASCII, so bytes and characters coincide).
- `strings.Replace(s, old, new, 1)` is `replace1`, `strings.ReplaceAll` is
  `replaceAll`, `strings.Count` is `goCount`, `strings.Contains` is
  `strContains`, `strings.Join` is `joinSep`.  The functions that skip over a
  matched pattern recurse with a structural fuel argument (initialised to the
  string length by their wrapper) so that they stay kernel-computable.
- Go's `panic` is modelled by returning `none` from an `Option`-valued
  function; accumulated (non-fatal) errors are lists of message strings.
- A Go `interface{}` argument is modelled by a closed sum type with one
  constructor per case of the corresponding type switch in the source.
- `bufio.Scanner` in `scanReplace` splits the input into marker tokens and
  maximal non-marker chunks; emitting a non-marker chunk character by
  character concatenates to the same output string, which is how `scanF`
  models it.  The scanner's internal buffer bound is not modelled.
-/

namespace bqb

/-- Go strings as lists of characters. -/
abbrev Str := List Char

/-- Turn a Lean string literal into the character-list representation. -/
def strL (s : String) : Str := s.data

/-- Back from the character-list representation to a `String` (used when the
source formats an error message from a piece of query text). -/
def ofStr (s : Str) : String := String.mk s

/-- The internal placeholder sentinel `paramPh = "xX_PARAM_Xx"`. -/
def paramPh : Str := strL "xX_PARAM_Xx"

/-- A single question mark, the template placeholder marker. -/
def qmark : Str := strL "?"

/-- The escaped-literal marker `??`. -/
def qq : Str := strL "??"

/-- `makePart`'s private mask for `??` occurrences (`tempPh` in the source). -/
def tempPh : Str := strL "XXX___XXX"

/-- `Valf`'s private mask for `??` occurrences (`tmpQ` in the source). -/
def tmpQ : Str := strL "1xXX1_Y_2XXx2"

/-- `intfToExpr`'s private mask for `??` occurrences (`"xXxXy__"`). -/
def xMask : Str := strL "xXxXy__"

/-- `strings.Contains s pat`. -/
def strContains : Str → Str → Bool
  | [], pat => decide (pat = [])
  | s@(_ :: rest), pat => pat.isPrefixOf s || strContains rest pat

/-- Body of `replace1` for a non-empty pattern `p :: ps`: replace the leftmost
occurrence, leave everything else unchanged. -/
def replace1Go (p : Char) (ps new : Str) : Str → Str
  | [] => []
  | c :: rest =>
    if (p :: ps).isPrefixOf (c :: rest) then new ++ rest.drop ps.length
    else c :: replace1Go p ps new rest

/-- `strings.Replace(s, old, new, 1)`: replace the first occurrence of `old`
by `new` (for empty `old`, Go inserts `new` before the first character). -/
def replace1 (s old new : Str) : Str :=
  match old with
  | [] => new ++ s
  | p :: ps => replace1Go p ps new s

/-- Body of `replaceAll` for a non-empty pattern, with structural fuel. -/
def replaceAllF (p : Char) (ps new : Str) : Nat → Str → Str
  | 0, s => s
  | _, [] => []
  | fuel+1, c :: rest =>
    if (p :: ps).isPrefixOf (c :: rest) then
      new ++ replaceAllF p ps new fuel (rest.drop ps.length)
    else c :: replaceAllF p ps new fuel rest

/-- `strings.ReplaceAll(s, old, new)`: replace every non-overlapping
occurrence of `old`, scanning left to right.  (The library never calls it
with an empty `old`, so that case is left as the identity.) -/
def replaceAll (s old new : Str) : Str :=
  match old with
  | [] => s
  | p :: ps => replaceAllF p ps new s.length s

/-- Body of `goCount` for a non-empty pattern, with structural fuel. -/
def countOccF (p : Char) (ps : Str) : Nat → Str → Nat
  | 0, _ => 0
  | _, [] => 0
  | fuel+1, c :: rest =>
    if (p :: ps).isPrefixOf (c :: rest) then
      countOccF p ps fuel (rest.drop ps.length) + 1
    else countOccF p ps fuel rest

/-- `strings.Count(s, pat)`: the number of non-overlapping occurrences of
`pat` in `s` (for empty `pat`, Go returns `len(s) + 1`). -/
def goCount (s pat : Str) : Nat :=
  match pat with
  | [] => s.length + 1
  | p :: ps => countOccF p ps s.length s

/-- `strings.Join(parts, sep)`. -/
def joinSep (sep : Str) : List Str → Str
  | [] => []
  | [x] => x
  | x :: xs => x ++ sep ++ joinSep sep xs

/-- Body of `scanReplace` for a non-empty marker `p :: ps`, with structural
fuel: the bufio scanner emits each marker occurrence as its own token
(replaced by `fn i` for the running 0-based occurrence index `i`) and passes
all other text through verbatim. -/
def scanF (p : Char) (ps : Str) (fn : Nat → Str) : Nat → Nat → Str → Str
  | 0, _, s => s
  | _, _, [] => []
  | fuel+1, i, c :: rest =>
    if (p :: ps).isPrefixOf (c :: rest) then
      fn i ++ scanF p ps fn fuel (i+1) (rest.drop ps.length)
    else c :: scanF p ps fn fuel i rest

/-- `scanReplace(stmt, marker, fn)` from utils.go.  The scanner error is
always `nil` in this model, so only the output text is returned.  (The
library never uses an empty marker.) -/
def scanReplace (stmt marker : Str) (fn : Nat → Str) : Str :=
  match marker with
  | [] => stmt
  | p :: ps => scanF p ps fn stmt.length 0 stmt

/-- Spec-level reference (not from the source): the chunks of non-marker text
between the non-overlapping, left-to-right occurrences of a marker.  A text
with `n` marker occurrences splits into `n + 1` chunks. -/
def specChunksF (p : Char) (ps : Str) : Nat → Str → List Str
  | 0, s => [s]
  | _, [] => [[]]
  | fuel+1, c :: rest =>
    if (p :: ps).isPrefixOf (c :: rest) then
      [] :: specChunksF p ps fuel (rest.drop ps.length)
    else
      match specChunksF p ps fuel rest with
      | [] => [[c]]
      | s :: ss => (c :: s) :: ss

/-- Spec-level reference: split `s` into the chunks of non-marker text around
the marker occurrences. -/
def specChunks (s pat : Str) : List Str :=
  match pat with
  | [] => [s]
  | p :: ps => specChunksF p ps s.length s

/-- Spec-level reference: reassemble chunks, interleaving one filler string
per marker occurrence (chunks pass through verbatim, in order). -/
def specWeave : List Str → List Str → Str
  | [], _ => []
  | c :: cs, [] => c ++ specWeave cs []
  | c :: cs, f :: fs => c ++ f ++ specWeave cs fs

/-- Scalar parameter values as they appear inside a nested `Expr` value (used
only to give the old-API `Expr` runtime value a decidable representation). -/
inductive SVal
  | sint (n : Int)
  | sstr (s : String)
  | sbool (b : Bool)
  | snull
deriving DecidableEq

/-- Runtime parameter values.  `vint`, `vstr`, `vbool`, `vnull`, `vptrInt`
and `vptrStr` are the types `paramToRaw` can render; `vexpr` is an old-API
`bqb.Expr` struct appearing as a value; `vother` is any other runtime value,
carrying the name `%T` would print for it. -/
inductive Val
  | vint (n : Int)
  | vstr (s : String)
  | vbool (b : Bool)
  | vnull
  | vptrInt (p : Option Int)
  | vptrStr (p : Option String)
  | vexpr (f : Str) (vs : List SVal)
  | vother (tyName : String)
deriving DecidableEq

/-- Modelled from the spec: the nested sub-query type (`Query`) is not among
the given source files; per the spec it exposes a render method
`toSql() -> (text, parameters, error)` whose text is in internal-placeholder
style.  A query value is modelled by the triple its render produces. -/
structure QueryVal where
  sql : Str
  params : List Val
  err : Option String
deriving DecidableEq

/-- Modelled from the spec: `(*Query).toSql()` returns the rendered triple. -/
def QueryVal.toSql (q : QueryVal) : Str × List Val × Option String :=
  (q.sql, q.params, q.err)

deriving instance DecidableEq for Except

/-- One case per arm of `convertArg`'s type switch: `Embedder`,
`driver.Valuer`, `[]int`, `[]*int`, `[]string`, `[]*string`, `[]any`,
`*Query` (`none` = nil pointer), `JsonMap`/`JsonList` (with the outcome of
`json.Marshal`), their pointer forms, `Embedded`, and the default scalar. -/
inductive Arg
  | embedder (raw : Str)
  | valuer (res : Except String Val)
  | ints (l : List Int)
  | ptrInts (l : List (Option Int))
  | strsA (l : List String)
  | ptrStrs (l : List (Option String))
  | anys (l : List Val)
  | query (q : Option QueryVal)
  | jsonV (res : Except String String)
  | jsonPtr (res : Except String String)
  | embedded (s : Str)
  | scalar (v : Val)
deriving DecidableEq

/-- `convertArg(text, arg)` from utils.go: consume the next `?` of `text`
according to the argument's shape; returns the new text, the values to append
and the errors to accumulate. -/
def convertArg (text : Str) (arg : Arg) : Str × List Val × List String :=
  match arg with
  | .embedder raw => (replace1 text qmark raw, [], [])
  | .valuer res =>
    (replace1 text qmark paramPh,
     match res with
     | .error e => ([], [e])
     | .ok val => ([val], []))
  | .ints l =>
    (replace1 text qmark (joinSep (strL ",") (l.map fun _ => paramPh)),
     l.map Val.vint, [])
  | .ptrInts l =>
    if l.length > 0 then
      (replace1 text qmark (joinSep (strL ",") (l.map fun _ => paramPh)),
       l.map Val.vptrInt, [])
    else (replace1 text qmark paramPh, [Val.vnull], [])
  | .strsA l =>
    (replace1 text qmark (joinSep (strL ",") (l.map fun _ => paramPh)),
     l.map Val.vstr, [])
  | .ptrStrs l =>
    if l.length > 0 then
      (replace1 text qmark (joinSep (strL ",") (l.map fun _ => paramPh)),
       l.map Val.vptrStr, [])
    else (replace1 text qmark paramPh, [Val.vnull], [])
  | .anys l =>
    (replace1 text qmark (joinSep (strL ",") (l.map fun _ => paramPh)), l, [])
  | .query none => (replace1 text qmark paramPh, [Val.vnull], [])
  | .query (some v) =>
    (replace1 text qmark v.toSql.1,
     match v.toSql.2.2 with
     | some e => ([], [e])
     | none => (v.toSql.2.1, []))
  | .jsonV res =>
    (replace1 text qmark paramPh,
     match res with
     | .error e => ([], ["cann jsonify struct: " ++ e])
     | .ok s => ([Val.vstr s], []))
  | .jsonPtr res =>
    (replace1 text qmark paramPh,
     match res with
     | .error e => ([], ["cann jsonify struct: " ++ e])
     | .ok s => ([Val.vstr s], []))
  | .embedded s => (replace1 text qmark s, [], [])
  | .scalar v => (replace1 text qmark paramPh, [v], [])

/-- `checkParamCounts(text, original, args)` from utils.go: a leftover `?` is
an "extra ?" error; fewer sentinel tokens than values is a "missing ?"
error; otherwise no error. -/
def checkParamCounts (text original : Str) (args : List Val) : Option String :=
  if goCount text qmark > 0 then
    some ("extra ? in text: " ++ ofStr original ++ " (" ++ toString args.length ++ " args)")
  else if goCount text paramPh < args.length then
    some ("missing ? in text: " ++ ofStr original ++ " (" ++ toString args.length ++ " args)")
  else none

/-- The result of expanding one formatted fragment. -/
structure QueryPart where
  Text : Str
  Params : List Val
  Errs : List String
deriving DecidableEq

/-- The argument loop of `makePart`: feed the running text through
`convertArg` once per argument, concatenating values and errors in order. -/
def makePartLoop (text : Str) (args : List Arg) : Str × List Val × List String :=
  match args with
  | [] => (text, [], [])
  | a :: rest =>
    let r1 := convertArg text a
    let r2 := makePartLoop r1.1 rest
    (r2.1, r1.2.1 ++ r2.2.1, r1.2.2 ++ r2.2.2)

/-- `makePart(text, args...)` from utils.go: mask `??` with `tempPh`, expand
each argument, append the `checkParamCounts` error if any, and restore the
mask back to the two-character sequence `??`. -/
def makePart (text : Str) (args : List Arg) : QueryPart :=
  let masked := replaceAll text qq tempPh
  let r := makePartLoop masked args
  let errs :=
    match checkParamCounts r.1 text r.2.1 with
    | some e => r.2.2 ++ [e]
    | none => r.2.2
  { Text := replaceAll r.1 tempPh qq, Params := r.2.1, Errs := errs }

/-- The old-API fragment: text plus ordered parameter values. -/
structure Expr where
  F : Str
  V : List Val
deriving DecidableEq

/-- One case per arm of `Valf`'s type switch: `[]int`, `[]string`,
`[]interface{}` and the default (any other single value). -/
inductive VArg
  | ints (l : List Int)
  | strsA (l : List String)
  | anys (l : List Val)
  | val (v : Val)
deriving DecidableEq

/-- The argument loop of `Valf`: sequences expand to `", "`-joined sentinel
tokens, anything else to a single sentinel token with the value appended. -/
def ValfLoop (expr : Str) (vals : List VArg) : Str × List Val :=
  match vals with
  | [] => (expr, [])
  | v :: rest =>
    let r1 :=
      match v with
      | .ints l =>
        (replace1 expr qmark (joinSep (strL ", ") (l.map fun _ => paramPh)),
         l.map Val.vint)
      | .strsA l =>
        (replace1 expr qmark (joinSep (strL ", ") (l.map fun _ => paramPh)),
         l.map Val.vstr)
      | .anys l =>
        (replace1 expr qmark (joinSep (strL ", ") (l.map fun _ => paramPh)), l)
      | .val w => (replace1 expr qmark paramPh, [w])
    let r2 := ValfLoop r1.1 rest
    (r2.1, r1.2 ++ r2.2)

/-- `Valf(expr, vals...)`: mask `??` with `tmpQ`, expand the arguments, panic
(`none`) if an unconsumed `?` remains, and restore the mask back to a single
literal `?`. -/
def Valf (expr : Str) (vals : List VArg) : Option Expr :=
  let newExpr := replaceAll expr qq tmpQ
  let r := ValfLoop newExpr vals
  if strContains r.1 qmark then none
  else some { F := replaceAll r.1 tmpQ qmark, V := r.2 }

/-- One case per arm of `intfToExpr`'s type switch: a plain string, a
pre-built `Expr`, or anything else (which panics). -/
inductive GArg
  | str (s : Str)
  | expr (e : Expr)
  | other (tyName : String)
deriving DecidableEq

/-- `intfToExpr(intf)`: a plain string is accepted only if, after masking
`??`, it contains no `?` (otherwise panic = `none`); the mask is restored to
a single literal `?`.  Unsupported types panic. -/
def intfToExpr (intf : GArg) : Option Expr :=
  match intf with
  | .str v =>
    let m := replaceAll v qq xMask
    if strContains m qmark then none
    else some { F := replaceAll m xMask qmark, V := [] }
  | .expr e => some e
  | .other _ => none

/-- `Group(sep, exprs...)`: convert each argument with `intfToExpr`
(propagating its panic), join the texts with `sep`, wrap in parentheses only
when more than one argument was given, and concatenate the value lists. -/
def Group (sep : Str) (exprs : List GArg) : Option Expr := do
  let es ← exprs.mapM intfToExpr
  let pre := if exprs.length > 1 then strL "(" else []
  let post := if exprs.length > 1 then strL ")" else []
  pure { F := pre ++ joinSep sep (es.map Expr.F) ++ post,
         V := (es.map Expr.V).flatten }

/-- `And(exprs...) = Group(" AND ", exprs...)`. -/
def And (exprs : List GArg) : Option Expr := Group (strL " AND ") exprs

/-- `Or(exprs...) = Group(" OR ", exprs...)`. -/
def Or (exprs : List GArg) : Option Expr := Group (strL " OR ") exprs

/-- The dialect tags switched on by `dialectReplace` (`UNSPEC` stands for any
unrecognized dialect, which takes the default branch). -/
inductive Dialect
  | RAW
  | MYSQL
  | SQL
  | PGSQL
  | UNSPEC
deriving DecidableEq

/-- One scanning pass: a marker pattern and its per-occurrence renderer. -/
structure ScanArg where
  pattern : Str
  fn : Nat → Str

/-- `replaceWithScans(in, ss...)`: apply the scans in order; the joined
scanner errors are always `nil` in this model. -/
def replaceWithScans (s : Str) (ss : List ScanArg) : Str × Option String :=
  (ss.foldl (fun acc sc => scanReplace acc sc.pattern sc.fn) s, none)

/-- `paramToRaw(param)`: render a parameter as a SQL literal, or fail for an
unsupported type.  (The numeric case covers Go's int/uint/float family; this
model carries `Int`.) -/
def paramToRaw : Val → Except String Str
  | .vbool b => .ok (strL (toString b))
  | .vint n => .ok (strL (toString n))
  | .vptrInt none => .ok (strL "NULL")
  | .vptrInt (some n) => .ok (strL (toString n))
  | .vstr s => .ok (strL ("'" ++ s ++ "'"))
  | .vptrStr none => .ok (strL "NULL")
  | .vptrStr (some s) => .ok (strL ("'" ++ s ++ "'"))
  | .vnull => .ok (strL "NULL")
  | .vexpr _ _ => .error "unsupported type for Raw query: bqb.Expr"
  | .vother tyName => .error ("unsupported type for Raw query: " ++ tyName)

/-- `true` iff `paramToRaw` succeeds on the value. -/
def rawOk (v : Val) : Bool :=
  match paramToRaw v with
  | .ok _ => true
  | .error _ => false

/-- The RAW branch's parameter loop: render every parameter, stopping at the
first conversion failure (Go returns `("", err)` from inside the loop). -/
def rawsOf : List Val → Except String (List Str)
  | [] => .ok []
  | v :: rest =>
    match paramToRaw v with
    | .error e => .error e
    | .ok r =>
      match rawsOf rest with
      | .error e => .error e
      | .ok rs => .ok (r :: rs)

/-- The numbered placeholder `fmt.Sprintf("$%d", i+1)`. -/
def pgPlaceholder (i : Nat) : Str := strL ("$" ++ toString (i + 1))

/-- `dialectReplace(dialect, sql, params)` from utils.go.  Returns the
rewritten text and the error (Go's `(string, error)` pair).  In the RAW
branch, Go indexes `raws[i]` and would panic past the end; the model totalises
that lookup with an empty-string default (no claim exercises it). -/
def dialectReplace (dialect : Dialect) (sql : Str) (params : List Val) : Str × Option String :=
  match dialect with
  | .RAW =>
    match rawsOf params with
    | .error e => ([], some e)
    | .ok raws => replaceWithScans sql [⟨paramPh, fun i => raws.getD i []⟩]
  | .MYSQL | .SQL => replaceWithScans sql [⟨paramPh, fun _ => qmark⟩]
  | .PGSQL =>
    replaceWithScans sql [⟨qq, fun _ => qmark⟩, ⟨paramPh, pgPlaceholder⟩]
  | .UNSPEC => (sql, none)

end bqb

namespace bqb

/-! ### Helper lemmas -/

theorem specWeave_cons_cons (c : Char) (s : Str) (ss fs : List Str) :
    specWeave ((c :: s) :: ss) fs = c :: specWeave (s :: ss) fs := by
  cases fs <;> simp [specWeave]

theorem specChunksF_ne_nil (p : Char) (ps : Str) :
    ∀ (fuel : Nat) (s : Str), specChunksF p ps fuel s ≠ [] := by
  intro fuel s
  match fuel, s with
  | 0, s => simp [specChunksF]
  | fuel+1, [] => simp [specChunksF]
  | fuel+1, c :: rest =>
    simp only [specChunksF]
    split
    · simp
    · split <;> simp

/-- The scanning loop emits the non-marker chunks verbatim, interleaved with
`fn` applied to the consecutive occurrence indices starting at `i`. -/
theorem scanF_eq_weave (p : Char) (ps : Str) (fn : Nat → Str) :
    ∀ (fuel i : Nat) (s : Str),
      scanF p ps fn fuel i s =
        specWeave (specChunksF p ps fuel s)
          ((List.range (countOccF p ps fuel s)).map (fun k => fn (i + k)))
  | 0, i, s => by simp [scanF, specChunksF, countOccF, specWeave]
  | fuel+1, i, [] => by simp [scanF, specChunksF, countOccF, specWeave]
  | fuel+1, i, c :: rest => by
    cases h : (p :: ps).isPrefixOf (c :: rest) with
    | true =>
      have ih := scanF_eq_weave p ps fn fuel (i+1) (rest.drop ps.length)
      have hfun : ((fun k => fn (i + k)) ∘ Nat.succ) = (fun k => fn (i + 1 + k)) := by
        funext k
        simp only [Function.comp, Nat.add_succ, Nat.succ_add]
      simp only [scanF, specChunksF, countOccF, h, if_true]
      rw [List.range_succ_eq_map]
      simp only [List.map_cons, List.map_map, specWeave, List.nil_append, hfun, ih]
      rfl
    | false =>
      have ih := scanF_eq_weave p ps fn fuel i rest
      rcases hs : specChunksF p ps fuel rest with _ | ⟨s, ss⟩
      · exact absurd hs (specChunksF_ne_nil p ps fuel rest)
      · simp only [scanF, specChunksF, countOccF, h, Bool.false_eq_true, if_false, hs]
        rw [specWeave_cons_cons, ih, hs]

theorem checkParamCounts_none (text original : Str) (args : List Val)
    (h : checkParamCounts text original args = none) :
    goCount text qmark = 0 ∧ args.length ≤ goCount text paramPh := by
  simp only [checkParamCounts] at h
  split at h
  · exact absurd h (by simp)
  · split at h
    · exact absurd h (by simp)
    · omega

theorem replaceAllF_ne_nil (p : Char) (ps : Str) (q : Char) (qs : Str) (fuel : Nat)
    (s : Str) (hs : s ≠ []) : replaceAllF p ps (q :: qs) fuel s ≠ [] := by
  cases fuel
  · simpa [replaceAllF]
  · cases s
    · exact absurd rfl hs
    · simp only [replaceAllF]
      split <;> simp

theorem rawsOf_first_error (good : List Val) (bad : Val) (rest : List Val) (e : String)
    (hgood : good.all rawOk = true) (hbad : paramToRaw bad = .error e) :
    rawsOf (good ++ bad :: rest) = .error e := by
  induction good with
  | nil => simp [rawsOf, hbad]
  | cons g gs ih =>
    simp only [List.all_cons, Bool.and_eq_true] at hgood
    obtain ⟨hg, hgs⟩ := hgood
    have ih' := ih hgs
    rcases hr : paramToRaw g with e' | r
    · simp [rawOk, hr] at hg
    · rw [List.cons_append]
      simp [rawsOf, hr, ih']

end bqb

namespace bqb

/-! ### Claim theorems -/

/-- Claim C1, counterexample: the balance invariant fails as stated.  The
template `"xX_PARAM_X?X_PARAM_Xx"` contains no occurrence of the internal
sentinel, yet `makePart` on a single scalar argument returns a fragment with
an empty error list whose text contains two sentinel tokens for a single
parameter value: the text surrounding the replaced `?` combines with the
inserted sentinel to form a second occurrence, and `checkParamCounts` only
rejects the other direction (fewer tokens than values). -/
theorem makePart_sentinel_collision_unreported :
    strContains (strL "xX_PARAM_X?X_PARAM_Xx") paramPh = false ∧
    (makePart (strL "xX_PARAM_X?X_PARAM_Xx") [Arg.scalar (Val.vint 1)]).Errs = [] ∧
    (makePart (strL "xX_PARAM_X?X_PARAM_Xx") [Arg.scalar (Val.vint 1)]).Params.length = 1 ∧
    goCount (makePart (strL "xX_PARAM_X?X_PARAM_Xx") [Arg.scalar (Val.vint 1)]).Text paramPh = 2 := by
  decide

/-- Claim C1, amended: the guarantee `makePart`'s empty error list actually
gives is one-sided.  If the returned fragment has no errors then the expanded
text (before the `??` mask is restored) contains no unconsumed `?`, and the
number of parameter values is at most the number of sentinel tokens; exact
equality is not checked and can fail (see the counterexample). -/
theorem makePart_errsFree_balance (t : Str) (args : List Arg)
    (h : (makePart t args).Errs = []) :
    goCount (makePartLoop (replaceAll t qq tempPh) args).1 qmark = 0 ∧
    (makePart t args).Params.length ≤
      goCount (makePartLoop (replaceAll t qq tempPh) args).1 paramPh := by
  have hc : checkParamCounts (makePartLoop (replaceAll t qq tempPh) args).1 t
      (makePartLoop (replaceAll t qq tempPh) args).2.1 = none := by
    simp only [makePart] at h
    split at h
    · simp at h
    · assumption
  have := checkParamCounts_none _ _ _ hc
  simpa [makePart] using this

/-- Witness for `makePart_errsFree_balance` at `makePart "a = ?" [5]`. -/
theorem makePart_errsFree_balance_witness :
    goCount (makePartLoop (replaceAll (strL "a = ?") qq tempPh) [Arg.scalar (Val.vint 5)]).1 qmark = 0 ∧
    (makePart (strL "a = ?") [Arg.scalar (Val.vint 5)]).Params.length ≤
      goCount (makePartLoop (replaceAll (strL "a = ?") qq tempPh) [Arg.scalar (Val.vint 5)]).1 paramPh :=
  makePart_errsFree_balance (strL "a = ?") [Arg.scalar (Val.vint 5)] (by decide)

/-- Claim C2: `scanReplace` with a non-empty marker returns exactly the
non-marker chunks of the input, verbatim and in order, interleaved with
`fn i` for the 0-based index `i` of each non-overlapping left-to-right
marker occurrence (so zero occurrences give the identity, occurrences at
either end are replaced, and text merely containing the marker as a proper
substring of a non-matching region is untouched). -/
theorem scanReplace_occurrence_characterization (stmt : Str) (p : Char) (ps : Str)
    (fn : Nat → Str) :
    scanReplace stmt (p :: ps) fn =
      specWeave (specChunks stmt (p :: ps))
        ((List.range (goCount stmt (p :: ps))).map fn) := by
  have h := scanF_eq_weave p ps fn stmt.length 0 stmt
  simp only [Nat.zero_add] at h
  simpa [scanReplace, specChunks, goCount] using h

end bqb

namespace bqb

/-- Claim C3, counterexample: `Valf("? = ?", 1)` does not return a fragment
with an accumulated error — it panics (modelled by `none`), because an
unconsumed `?` remains after the argument loop. -/
theorem Valf_mismatch_panics :
    Valf (strL "? = ?") [VArg.val (Val.vint 1)] = none := by
  decide

/-- Claim C3, amended: in `makePart` a placeholder/argument mismatch in
either direction (a leftover `?`, or fewer sentinel tokens than values) is
reported as an accumulated error on the returned fragment, whose text is
still returned (non-empty whenever the expanded text is non-empty).  `Valf`
instead panics on a leftover `?` and silently ignores surplus arguments. -/
theorem makePart_mismatch_reported (t : Str) (args : List Arg)
    (h : goCount (makePartLoop (replaceAll t qq tempPh) args).1 qmark > 0 ∨
         goCount (makePartLoop (replaceAll t qq tempPh) args).1 paramPh <
           (makePartLoop (replaceAll t qq tempPh) args).2.1.length) :
    (makePart t args).Errs ≠ [] ∧
    ((makePartLoop (replaceAll t qq tempPh) args).1 ≠ [] → (makePart t args).Text ≠ []) := by
  constructor
  · have hc : checkParamCounts (makePartLoop (replaceAll t qq tempPh) args).1 t
        (makePartLoop (replaceAll t qq tempPh) args).2.1 ≠ none := by
      simp only [checkParamCounts]
      split
      · simp
      · split
        · simp
        · rcases h with h | h <;> omega
    simp only [makePart]
    split
    · simp
    · exact absurd (by assumption) hc
  · intro hne
    have hq : qq = '?' :: strL "?" := rfl
    have ht : tempPh = 'X' :: strL "XX___XXX" := rfl
    simp only [makePart, replaceAll, hq, ht]
    exact replaceAllF_ne_nil 'X' (strL "XX___XXX") '?' (strL "?") _ _ hne

/-- Witness for `makePart_mismatch_reported` at `makePart "? = ?" [1]`. -/
theorem makePart_mismatch_reported_witness :
    (makePart (strL "? = ?") [Arg.scalar (Val.vint 1)]).Errs ≠ [] ∧
    ((makePartLoop (replaceAll (strL "? = ?") qq tempPh) [Arg.scalar (Val.vint 1)]).1 ≠ [] →
      (makePart (strL "? = ?") [Arg.scalar (Val.vint 1)]).Text ≠ []) :=
  makePart_mismatch_reported (strL "? = ?") [Arg.scalar (Val.vint 1)] (Or.inl (by decide))

end bqb

namespace bqb

/-- Claim C4: rendering under the PGSQL dialect first resolves every `??` to
a literal `?` and then replaces the i-th (0-based, left-to-right) internal
sentinel occurrence with the numbered placeholder `$(i+1)`: the output is the
non-sentinel chunks of the `??`-resolved text interleaved with exactly
`$1 ... $N` for `N` sentinel occurrences, in occurrence order with no gaps or
repeats (the parameter values are not consulted, and `dialectReplace` leaves
the parameter list untouched). -/
theorem dialectReplace_pgsql_numbered (sql : Str) (params : List Val) :
    dialectReplace Dialect.PGSQL sql params =
      (specWeave (specChunks (scanReplace sql qq (fun _ => qmark)) paramPh)
        ((List.range (goCount (scanReplace sql qq (fun _ => qmark)) paramPh)).map pgPlaceholder),
       none) := by
  show (scanReplace (scanReplace sql qq (fun _ => qmark)) paramPh pgPlaceholder, none) = _
  generalize scanReplace sql qq (fun _ => qmark) = t2
  have hph : paramPh = 'x' :: strL "X_PARAM_Xx" := rfl
  have h := scanF_eq_weave 'x' (strL "X_PARAM_Xx") pgPlaceholder t2.length 0 t2
  simp only [Nat.zero_add] at h
  rw [hph]
  simp only [scanReplace, specChunks, goCount, Prod.mk.injEq]
  exact ⟨h, trivial⟩

/-- Claim C5, counterexample: `Valf` does not inline a nested fragment.  The
inner call `Valf("x = ?", 5)` yields the fragment `⟨"x = " ++ sentinel, [5]⟩`;
passing that fragment value to the outer `Valf("?", ·)` hits the scalar
default case, so the outer text is just one sentinel token (the inner text is
not inlined) and the outer parameter list is the fragment value itself — not
`[5]`. -/
theorem Valf_nested_expr_not_inlined :
    Valf (strL "x = ?") [VArg.val (Val.vint 5)] =
      some { F := strL "x = " ++ paramPh, V := [Val.vint 5] } ∧
    Valf (strL "?") [VArg.val (Val.vexpr (strL "x = " ++ paramPh) [SVal.sint 5])] =
      some { F := paramPh,
             V := [Val.vexpr (strL "x = " ++ paramPh) [SVal.sint 5]] } ∧
    [Val.vexpr (strL "x = " ++ paramPh) [SVal.sint 5]] ≠ [Val.vint 5] ∧
    strContains paramPh (strL "x = ") = false := by
  decide

/-- Claim C5, amended: inline flattening of a nested query is what
`makePart`/`convertArg` do for a (non-nil) `*Query` argument: its rendered
text replaces the `?` and its parameter list is appended in order, with no
error, whenever the nested render itself reports none. -/
theorem convertArg_query_inlines (t : Str) (q : QueryVal) (h : q.err = none) :
    convertArg t (Arg.query (some q)) = (replace1 t qmark q.sql, q.params, []) := by
  simp [convertArg, QueryVal.toSql, h]

/-- Witness for `convertArg_query_inlines` with the inner fragment of the
claim's example (`"x = ?"` bound to `5`, rendered in sentinel style). -/
theorem convertArg_query_inlines_witness :
    convertArg (strL "?") (Arg.query (some ⟨strL "x = " ++ paramPh, [Val.vint 5], none⟩)) =
      (replace1 (strL "?") qmark (strL "x = " ++ paramPh), [Val.vint 5], []) :=
  convertArg_query_inlines (strL "?") ⟨strL "x = " ++ paramPh, [Val.vint 5], none⟩ rfl

end bqb

namespace bqb

/-- Claim C6, counterexample: an empty `[]int` does not bind one sentinel and
one null — `convertArg`'s `[]int` arm has no empty-sequence special case, so
the `?` is replaced by the empty join (i.e. removed) and nothing is appended:
`makePart("a in (?)", []int{})` yields text `"a in ()"`, no parameters, no
errors, and no sentinel token. -/
theorem makePart_empty_ints_no_null :
    makePart (strL "a in (?)") [Arg.ints []] =
      { Text := strL "a in ()", Params := [], Errs := [] } ∧
    goCount (strL "a in ()") paramPh = 0 := by
  decide

/-- Claim C6, amended: only the pointer-sequence arms (`[]*int`, `[]*string`)
bind one sentinel token to one null value when the sequence is empty; the
plain-sequence arms (`[]int`, `[]string`, `[]any`) replace the `?` by the
empty string and append no value (which also preserves balance, but produces
`IN ()` rather than `IN (NULL)`). -/
theorem convertArg_empty_sequences (t : Str) :
    convertArg t (Arg.ptrInts []) = (replace1 t qmark paramPh, [Val.vnull], []) ∧
    convertArg t (Arg.ptrStrs []) = (replace1 t qmark paramPh, [Val.vnull], []) ∧
    convertArg t (Arg.ints []) = (replace1 t qmark [], [], []) ∧
    convertArg t (Arg.strsA []) = (replace1 t qmark [], [], []) ∧
    convertArg t (Arg.anys []) = (replace1 t qmark [], [], []) := by
  simp [convertArg, joinSep]

/-- Claim C7, counterexample: under the RAW dialect two unconvertible
parameters do not produce a combined error with partial text — rendering
stops at the first failure, returning only that error and the empty string
(not the partially rendered text). -/
theorem dialectReplace_raw_not_collecting :
    dialectReplace Dialect.RAW (paramPh ++ strL " , " ++ paramPh)
        [Val.vother "bqb.Expr", Val.vother "chan int"] =
      ([], some "unsupported type for Raw query: bqb.Expr") := by
  decide

/-- Claim C7, amended: under the RAW dialect, the first parameter (in order)
that `paramToRaw` cannot convert aborts rendering immediately: exactly its
error is returned, together with the empty string instead of any partial
text; later failures are never reached. -/
theorem dialectReplace_raw_first_error (sql : Str) (good : List Val) (bad : Val)
    (rest : List Val) (e : String) (hgood : good.all rawOk = true)
    (hbad : paramToRaw bad = .error e) :
    dialectReplace Dialect.RAW sql (good ++ bad :: rest) = ([], some e) := by
  simp [dialectReplace, rawsOf_first_error good bad rest e hgood hbad]

/-- Witness for `dialectReplace_raw_first_error`: one convertible parameter
followed by two unconvertible ones. -/
theorem dialectReplace_raw_first_error_witness :
    dialectReplace Dialect.RAW paramPh
        ([Val.vint 1] ++ Val.vother "chan int" :: [Val.vother "func()"]) =
      ([], some ("unsupported type for Raw query: " ++ "chan int")) :=
  dialectReplace_raw_first_error paramPh [Val.vint 1] (Val.vother "chan int")
    [Val.vother "func()"] ("unsupported type for Raw query: " ++ "chan int")
    (by decide) rfl

end bqb

namespace bqb

/-- Claim C8, counterexample: `makePart` does not restore masked `??` back to
a literal `?` in the fragment's text — it restores the two-character sequence
`??`: `makePart("?? and ?", 1)` returns text `"?? and " ++ sentinel`, whose
`?`-count is 2, not the single literal `?` the claim describes. -/
theorem makePart_keeps_escaped_pair :
    (makePart (strL "?? and ?") [Arg.scalar (Val.vint 1)]).Text = strL "?? and " ++ paramPh ∧
    goCount (makePart (strL "?? and ?") [Arg.scalar (Val.vint 1)]).Text qmark = 2 := by
  decide

/-- Claim C8, amended: `Valf` restores masked `??` to a literal `?` in the
fragment text itself, while `makePart` restores the pair `??`, which only the
PGSQL dialect scan later resolves to a literal `?`.  Post-PGSQL-dialect both
builders render the example `("?? and ?", 1)` to `"? and $1"` — a single
unescaped `?`, then `" and "`, then the placeholder — with parameter `[1]`. -/
theorem escaped_qmark_restoration :
    Valf (strL "?? and ?") [VArg.val (Val.vint 1)] =
      some { F := strL "? and " ++ paramPh, V := [Val.vint 1] } ∧
    dialectReplace Dialect.PGSQL (strL "? and " ++ paramPh) [Val.vint 1] =
      (strL "? and $1", none) ∧
    (makePart (strL "?? and ?") [Arg.scalar (Val.vint 1)]).Params = [Val.vint 1] ∧
    dialectReplace Dialect.PGSQL (strL "?? and " ++ paramPh) [Val.vint 1] =
      (strL "? and $1", none) := by
  decide

/-- Claim C9, counterexample: a plain string whose question marks all come
from `??` escapes is accepted by `Group`, but its text is not preserved
unchanged — each `??` is collapsed to a single literal `?`. -/
theorem group_collapses_escape :
    Group (strL " AND ") [GArg.str (strL "a ?? b")] =
      some { F := strL "a ? b", V := [] } ∧
    strL "a ? b" ≠ strL "a ?? b" := by
  decide

/-- Claim C9, amended: a plain string argument to `Group` (`And`/`Or`
delegate to it) panics immediately — no `Expr` is produced — exactly when it
still contains a `?` after the `??` pairs are masked; otherwise it is
accepted with each `??` collapsed to a single literal `?` and no values. -/
theorem group_string_validation (sep s : Str) :
    Group sep [GArg.str s] =
      (if strContains (replaceAll s qq xMask) qmark then none
       else some { F := replaceAll (replaceAll s qq xMask) xMask qmark, V := [] }) ∧
    And [GArg.str s] = Group (strL " AND ") [GArg.str s] ∧
    Or [GArg.str s] = Group (strL " OR ") [GArg.str s] := by
  refine ⟨?_, rfl, rfl⟩
  simp only [Group, intfToExpr, List.mapM_cons, List.mapM_nil]
  split
  · rfl
  · simp [joinSep]

/-- Claim C10: a nil `*Query` argument is treated as a scalar null:
`convertArg` replaces the `?` with exactly one sentinel token, appends a nil
value, and accumulates no error. -/
theorem convertArg_nil_query (t : Str) :
    convertArg t (Arg.query none) = (replace1 t qmark paramPh, [Val.vnull], []) := rfl

end bqb
